import Mathlib

/-!
Shallow embedding of the algorithmic core of the naver-market-research
repository (a Streamlit market-research dashboard), together with proofs of
the specification claims about it.

Embedded source functions:
* `src/core/analyzer.py`   : `_fallback_analysis`, `_parse_analysis_response`,
  `analyze_market` (the external AI call and `json.loads` are parameters).
* `src/core/naver_api.py`  : `extract_features` (vocabulary matchers and the
  `_SIZE_PATTERN` regex, embedded as an explicit matcher).
* `src/pages/1_키워드_검색.py` : `extract_features_from_title` and the
  "특징 자동 입력" (auto-fill) button handler.
* `src/pages/2_시장_분석.py` and `src/pages/3_비교_분석.py` : the two copies of
  `parse_features`.

Python `dict`s are embedded as insertion-ordered association lists with
overwrite-in-place update, python machine-independent `int` as `Int`, and the
Python string primitives used by the source (`strip`, `split`, `lower`,
substring `in`, `",".join`) as executable Lean functions over `List Char` /
`String`.
-/

namespace NaverMarket

/-! ## Python string primitives -/

/-- `str.strip()` on the character list: drop whitespace from both ends. -/
def pyStripList (cs : List Char) : List Char :=
  ((cs.dropWhile Char.isWhitespace).reverse.dropWhile Char.isWhitespace).reverse

/-- Python `str.strip()` (no argument form): trim whitespace on both sides. -/
def pyStrip (s : String) : String :=
  ⟨pyStripList s.data⟩

/-- `needle` is a prefix of `hay` (on character lists). -/
def isPrefixCL : List Char → List Char → Bool
  | [], _ => true
  | _ :: _, [] => false
  | a :: as, b :: bs => a == b && isPrefixCL as bs

/-- `needle` occurs as a contiguous substring of `hay` (on character lists). -/
def containsCL (needle : List Char) : List Char → Bool
  | [] => needle.isEmpty
  | c :: rest => isPrefixCL needle (c :: rest) || containsCL needle rest

/-- Python `needle in hay` substring test. -/
def pyIn (needle hay : String) : Bool :=
  containsCL needle.data hay.data

/-- Python `str.lower()`; ASCII case mapping (the Korean text used by the
source is unaffected by case mapping). -/
def pyLower (s : String) : String :=
  ⟨s.data.map Char.toLower⟩

/-- Python `sep.join(parts)`. -/
def pyJoin (sep : String) : List String → String
  | [] => ""
  | [x] => x
  | x :: y :: xs => x ++ sep ++ pyJoin sep (y :: xs)

/-- Helper for `pySplitWs`: accumulate the current (reversed) word. -/
def wordsAux : List Char → List Char → List String
  | [], acc => if acc.isEmpty then [] else [⟨acc.reverse⟩]
  | c :: cs, acc =>
    if c.isWhitespace then
      if acc.isEmpty then wordsAux cs [] else ⟨acc.reverse⟩ :: wordsAux cs []
    else wordsAux cs (c :: acc)

/-- Python `str.split()` with no argument: split on whitespace runs and drop
empty pieces. -/
def pySplitWs (s : String) : List String :=
  wordsAux s.data []

/-- Helper for `pySplitChar`: split on every occurrence of `sep`. -/
def splitCharAux (sep : Char) : List Char → List Char → List String
  | [], acc => [⟨acc.reverse⟩]
  | c :: cs, acc =>
    if c == sep then (⟨acc.reverse⟩ : String) :: splitCharAux sep cs []
    else splitCharAux sep cs (c :: acc)

/-- Python `str.split(sep)` for a one-character separator (the source only
splits on `","`): keeps empty pieces, `[""]` on the empty string. -/
def pySplitChar (sep : Char) (s : String) : List String :=
  splitCharAux sep s.data []

/-- Helper for `pySplitFirst`. -/
def splitFirstAux (sep : Char) : List Char → List Char → Option (String × String)
  | [], _ => none
  | c :: cs, acc =>
    if c == sep then some (⟨acc.reverse⟩, ⟨cs⟩) else splitFirstAux sep cs (c :: acc)

/-- Python `s.split(sep, 1)` preceded by the `sep in s` test: `none` when the
separator does not occur, otherwise the pieces before and after its first
occurrence. -/
def pySplitFirst (sep : Char) (s : String) : Option (String × String) :=
  splitFirstAux sep s.data []

/-! ## Python dict embedded as an insertion-ordered association list -/

/-- `d[k] = v`: overwrite in place if the key is present, else append. -/
def dictSet {β : Type} (d : List (String × β)) (k : String) (v : β) :
    List (String × β) :=
  if d.any (fun kv => kv.1 == k) then
    d.map (fun kv => if kv.1 == k then (k, v) else kv)
  else d ++ [(k, v)]

/-- `d.get(k, dflt)`. -/
def dictGetD {β : Type} (d : List (String × β)) (k : String) (dflt : β) : β :=
  match d.find? (fun kv => kv.1 == k) with
  | some kv => kv.2
  | none => dflt

/-- `d.get(k)`: `none` when the key is absent. -/
def dictGet? {β : Type} (d : List (String × β)) (k : String) : Option β :=
  (d.find? (fun kv => kv.1 == k)).map (fun kv => kv.2)

/-! ## Data model (`src/core/models.py`) -/

/-- `Product` dataclass from `src/core/models.py`. -/
structure Product where
  title : String
  link : String
  image : String
  lprice : Int
  hprice : Int
  mall_name : String
  product_id : String
  product_type : String
  brand : String
  maker : String
  category1 : String
  category2 : String
  category3 : String
  category4 : String
deriving DecidableEq

/-- One price-segment dict produced by `_fallback_analysis`.  The source
stores the boundary pair only inside the formatted `"range"` label string;
the embedding keeps the two numbers (`low`, `high`) alongside the label so
that the claims about them can be stated.  `range_label` is exactly the
source's `"range"` entry. -/
structure PriceSegment where
  low : Int
  high : Int
  range_label : String
  count : Nat
  avg_price : Int
  characteristics : String
  representative_brands : List String
deriving DecidableEq

/-- `AnalysisResult` dataclass from `src/core/models.py` (with the typed
segments produced by the fallback path). -/
structure AnalysisResult where
  keyword : String
  product_count : Nat
  price_segments : List PriceSegment
  market_overview : String
  white_space : List String
  competitive_landscape : String
  key_features : List String
  raw_ai_response : String := ""
deriving DecidableEq

/-! ## Number formatting: python `f"{x:,}"` -/

/-- Insert a `','` after every third digit; input is the digit list in
reverse order, `k` counts digits already emitted in the current group. -/
def commaGroupRev : List Char → Nat → List Char
  | [], _ => []
  | c :: cs, k =>
    if k == 3 then ',' :: c :: commaGroupRev cs 1 else c :: commaGroupRev cs (k + 1)

/-- `f"{n:,}"` for a natural number. -/
def natComma (n : Nat) : String :=
  ⟨(commaGroupRev (toString n).data.reverse 0).reverse⟩

/-- `f"{i:,}"` for an integer. -/
def intComma (i : Int) : String :=
  if i < 0 then "-" ++ natComma i.natAbs else natComma i.natAbs

/-! ## Fallback analyzer (`src/core/analyzer.py`, `_fallback_analysis`) -/

/-- `p.brand or "unknown"`. -/
def brandOf (p : Product) : String :=
  if p.brand == "" then "unknown" else p.brand

/-- One step of building a python dict of counts:
`d[b] = d.get(b, 0) + 1`, keeping first-encounter key order. -/
def bumpKey : List (String × Nat) → String → List (String × Nat)
  | [], b => [(b, 1)]
  | (k, c) :: rest, b =>
    if k == b then (k, c + 1) :: rest else (k, c) :: bumpKey rest b

/-- Count occurrences, keys in first-encounter order (python dict /
`collections.Counter` iteration order). -/
def countKeys (l : List String) : List (String × Nat) :=
  l.foldl bumpKey []

/-- `sorted(items, key=lambda x: -x[1])[:k]`, keeping the keys: stable sort
by descending count, then take the first `k` keys.  `List.insertionSort` is
stable, matching python's stable `sorted`. -/
def topByCount (k : Nat) (items : List (String × Nat)) : List String :=
  ((items.insertionSort (fun a b => b.2 ≤ a.2)).take k).map (fun kv => kv.1)

/-- Python `min` on a (nonempty) list of ints; 0 on `[]`, unreached by the
source. -/
def listMin : List Int → Int
  | [] => 0
  | x :: xs => xs.foldl min x

/-- Python `max` on a (nonempty) list of ints; 0 on `[]`, unreached by the
source. -/
def listMax : List Int → Int
  | [] => 0
  | x :: xs => xs.foldl max x

/-- `[p.lprice for p in products if p.lprice > 0]`. -/
def posPrices (products : List Product) : List Int :=
  (products.map Product.lprice).filter (fun x => decide (0 < x))

/-- `prices = sorted([p.lprice for p in products if p.lprice > 0])`.
Sorting a list of integers: any correct sort yields the same list, so
`List.insertionSort` embeds python `sorted`. -/
def sortedPrices (products : List Product) : List Int :=
  List.insertionSort (fun a b => a ≤ b) (posPrices products)

/-- `[prices[0], prices[n//4], prices[n//2], prices[3*n//4], prices[-1]]`
(the indices are in bounds whenever `prices` is nonempty, which is the only
case in which the source evaluates this). -/
def quartileList (prices : List Int) : List Int :=
  [prices.getD 0 0, prices.getD (prices.length / 4) 0,
   prices.getD (prices.length / 2) 0, prices.getD (3 * prices.length / 4) 0,
   prices.getD (prices.length - 1) 0]

/-- The loop body of the segment loop in `_fallback_analysis`
(lines 156-173 of `src/core/analyzer.py`). -/
def mkSegment (products : List Product) (i : Nat) (low high : Int) :
    PriceSegment :=
  let segment_products :=
    products.filter (fun p => decide (low ≤ p.lprice) && decide (p.lprice ≤ high))
  { low := low
    high := high
    range_label := intComma low ++ "원 ~ " ++ intComma high ++ "원"
    count := segment_products.length
    avg_price :=
      (segment_products.map Product.lprice).sum
        / ((max segment_products.length 1 : Nat) : Int)
    characteristics :=
      (if i == 0 then "저가" else if i == 1 then "중저가"
       else if i == 2 then "중고가" else "프리미엄") ++ " 영역"
    representative_brands := topByCount 3 (countKeys (segment_products.map brandOf)) }

/-- The stopword set of `_fallback_analysis`. -/
def stopwords : List String :=
  ["the", "a", "an", "and", "or", "for", "with", "in", "of", "to", "및", "외", "용"]

/-- The `key_features` mining of `_fallback_analysis` (lines 184-196):
`Counter` over whitespace-split title tokens, `most_common(30)`, then filter
length > 1, non-stopword, count ≥ 2, then take 15. -/
def keyFeaturesOf (products : List Product) : List String :=
  let words := (products.map (fun p => pySplitWs p.title)).flatten
  let common := ((countKeys words).insertionSort (fun a b => b.2 ≤ a.2)).take 30
  (((common.filter (fun wc =>
      decide (wc.1.length > 1) && !(stopwords.contains wc.1) && decide (wc.2 ≥ 2))).map
    (fun wc => wc.1)).take 15)

/-- `_fallback_analysis` from `src/core/analyzer.py` (lines 137-208). -/
def _fallback_analysis (keyword : String) (products : List Product) :
    AnalysisResult :=
  let prices := sortedPrices products
  if prices = [] then
    { keyword := keyword
      product_count := products.length
      price_segments := []
      market_overview := "가격 데이터가 없어 분석할 수 없습니다."
      white_space := []
      competitive_landscape := ""
      key_features := [] }
  else
    let quartiles := quartileList prices
    let segments := (List.range 4).map (fun i =>
      mkSegment products i (quartiles.getD i 0) (quartiles.getD (i + 1) 0))
    let brands := countKeys (products.map brandOf)
    let top_brands := ((brands.insertionSort (fun a b => b.2 ≤ a.2)).take 5)
    let brand_text :=
      pyJoin ", " (top_brands.map (fun bc => bc.1 ++ "(" ++ natComma bc.2 ++ "건)"))
    { keyword := keyword
      product_count := products.length
      price_segments := segments
      market_overview :=
        "'" ++ keyword ++ "' 시장은 " ++ intComma (listMin prices) ++
        "원~" ++ intComma (listMax prices) ++ "원 범위에 " ++
        natComma products.length ++ "개 상품이 분포합니다. 평균 가격은 " ++
        intComma (prices.sum / (prices.length : Int)) ++ "원이며, 주요 브랜드는 " ++
        brand_text ++ "입니다. (AI 분석을 위해 ANTHROPIC_API_KEY를 설정해주세요)"
      white_space := ["AI API 키를 설정하면 화이트스페이스 분석이 제공됩니다."]
      competitive_landscape :=
        "상위 브랜드: " ++ brand_text ++ ". 총 " ++ natComma brands.length ++
        "개 브랜드가 경쟁 중입니다."
      key_features := keyFeaturesOf products }

/-! ## Annotation parser (`parse_features`, pages 2 and 3) -/

/-- `parse_features` from `src/pages/2_시장_분석.py` (lines 58-68): split on
commas, split each part on the first colon, trim both sides, keep only pairs
with nonempty key and value, later duplicate keys overwrite. -/
def parse_features_page2 (text : String) : List (String × String) :=
  (pySplitChar ',' text).foldl (fun result part =>
    let part := pyStrip part
    match pySplitFirst ':' part with
    | none => result
    | some (k, v) =>
      let key := pyStrip k
      let val := pyStrip v
      if key != "" && val != "" then dictSet result key val else result) []

/-- `parse_features` from `src/pages/3_비교_분석.py` (lines 135-144); the
source duplicates the function verbatim in the two pages. -/
def parse_features_page3 (text : String) : List (String × String) :=
  (pySplitChar ',' text).foldl (fun result part =>
    let part := pyStrip part
    match pySplitFirst ':' part with
    | none => result
    | some (k, v) =>
      let key := pyStrip k
      let val := pyStrip v
      if key != "" && val != "" then dictSet result key val else result) []

/-! ## Auto-fill extractor (`src/pages/1_키워드_검색.py`,
`extract_features_from_title`, lines 102-130) -/

/-- The 구분 (multiplicity) if/elif chain, applied to the lowercased title. -/
def gubunParts (t : String) : List String :=
  if pyIn "싱글" t then ["구분:싱글"]
  else if pyIn "듀얼" t || pyIn "더블" t then ["구분:듀얼"]
  else if pyIn "트리플" t then ["구분:트리플"]
  else []

/-- The 형태 (form) if/elif chain, applied to the lowercased title. -/
def formParts (t : String) : List String :=
  if pyIn "폴타입" t || (pyIn "폴" t && pyIn "모니터" t) then ["형태:폴타입"]
  else if pyIn "스탠드" t || pyIn "스탠다드" t then ["형태:스탠드형"]
  else if pyIn "클램프" t then ["형태:클램프형"]
  else if pyIn "벽걸이" t || pyIn "월마운트" t then ["형태:벽걸이형"]
  else []

/-- Matcher for `re.search(r'(\d+(?:\.\d+)?)\s*kg', t)` anchored at the
current position; returns group 1.  The regex admits no backtracking beyond
greedy runs here: a maximal digit run, an optional `.`+digits (taken exactly
when a digit follows the dot), maximal whitespace, then the literal `kg`. -/
def kgMatchAt (cs : List Char) : Option String :=
  let d1 := cs.takeWhile Char.isDigit
  if d1.isEmpty then none
  else
    let rest1 := cs.drop d1.length
    let (grp, rest2) :=
      match rest1 with
      | '.' :: r =>
        let d2 := r.takeWhile Char.isDigit
        if d2.isEmpty then (d1, rest1) else (d1 ++ '.' :: d2, r.drop d2.length)
      | _ => (d1, rest1)
    let rest3 := rest2.dropWhile Char.isWhitespace
    if isPrefixCL ['k', 'g'] rest3 then some ⟨grp⟩ else none

/-- `re.search` scan for the weight pattern: leftmost match wins. -/
def kgSearch : List Char → Option String
  | [] => none
  | c :: rest =>
    match kgMatchAt (c :: rest) with
    | some g => some g
    | none => kgSearch rest

/-- The 지탱무게 (weight-capacity) part, applied to the lowercased title. -/
def kgParts (t : String) : List String :=
  match kgSearch t.data with
  | some g => ["지탱무게:" ++ g ++ "kg"]
  | none => []

/-- `extract_features_from_title` from `src/pages/1_키워드_검색.py`:
`", ".join` of the detected parts in the fixed order 구분, 형태, 지탱무게. -/
def extract_features_from_title (title : String) : String :=
  let t := pyLower title
  pyJoin ", " (gubunParts t ++ formParts t ++ kgParts t)

/-! ## Auto-fill button handler (`src/pages/1_키워드_검색.py`, lines 443-457) -/

/-- A stored annotation entry: either a legacy plain string or the newer
`{"features": ..., "name": ...}` dict. -/
inductive FeatEntry where
  | str (s : String) : FeatEntry
  | obj (features : String) (name : String) : FeatEntry
deriving DecidableEq

/-- `edit_val.get("features", "") if isinstance(edit_val, dict) else edit_val`. -/
def featTextOf : FeatEntry → String
  | .str s => s
  | .obj f _ => f

/-- One iteration of the auto-fill loop: fill the entry for `p` only when its
current features text (`existing_feat`) is empty after `strip()`, and only
with a nonempty extraction (`extracted`); the source's local variables are
inlined. -/
def autoFillStep (auto_edits : List (String × FeatEntry)) (p : Product) :
    List (String × FeatEntry) :=
  if pyStrip (featTextOf (dictGetD auto_edits p.product_id (FeatEntry.str ""))) == "" then
    if extract_features_from_title p.title != "" then
      dictSet auto_edits p.product_id
        (FeatEntry.obj (extract_features_from_title p.title) p.title)
    else auto_edits
  else auto_edits

/-- The 특징 자동 입력 (auto-fill) button handler's loop over the products. -/
def autoFill (auto_edits : List (String × FeatEntry)) (products : List Product) :
    List (String × FeatEntry) :=
  products.foldl autoFillStep auto_edits

/-! ## Feature extractor (`src/core/naver_api.py`, lines 80-156) -/

/-- Python `\w` (with `re.UNICODE`) restricted to the scripts that occur in
this application's data: ASCII alphanumerics, `_`, and the Hangul blocks. -/
def pyIsWordChar (c : Char) : Bool :=
  c.isAlphanum || c == '_' ||
  (decide (0xAC00 ≤ c.toNat) && decide (c.toNat ≤ 0xD7A3)) ||
  (decide (0x1100 ≤ c.toNat) && decide (c.toNat ≤ 0x11FF)) ||
  (decide (0x3130 ≤ c.toNat) && decide (c.toNat ≤ 0x318F))

/-- `\b` at the position right after a word character: boundary iff the next
character is absent or a non-word character. -/
def wordBoundaryAfter (cs : List Char) : Bool :=
  match cs with
  | [] => true
  | c :: _ => !(pyIsWordChar c)

/-- Exactly `k` leading characters exist and are digits (`\d{k}` viewed as
one candidate of a bounded repetition). -/
def matchDigitsK (k : Nat) (cs : List Char) : Bool :=
  decide ((cs.take k).length = k) && (cs.take k).all Char.isDigit

/-- Length of the maximal whitespace run (`\s*`, greedy; every continuation
in `_SIZE_PATTERN` starts with a non-whitespace character, so the maximal
run is the only viable one). -/
def wsLen (cs : List Char) : Nat :=
  (cs.takeWhile Char.isWhitespace).length

/-- The dimension separator class `[xX×*]`. -/
def isSepX (c : Char) : Bool :=
  c == 'x' || c == 'X' || c == '×' || c == '*'

/-- First alternative of `f` on `l` that yields a result: the backtracking
order of a bounded greedy repetition (candidate lengths tried longest
first). -/
def firstSome {α β : Type} (f : α → Option β) : List α → Option β
  | [] => none
  | a :: as =>
    match f a with
    | some b => some b
    | none => firstSome f as

/-- `\s*[xX×*]\s*\d{2,4}`: one further dimension; returns the consumed
length. -/
def matchSepDims (cs : List Char) : Option Nat :=
  let w1 := wsLen cs
  match cs.drop w1 with
  | [] => none
  | c :: cs2 =>
    if isSepX c then
      let w2 := wsLen cs2
      let cs3 := cs2.drop w2
      firstSome
        (fun k => if matchDigitsK k cs3 then some (w1 + 1 + w2 + k) else none)
        [4, 3, 2]
    else none

/-- Branch (a) of `_SIZE_PATTERN`:
`\d{2,4}\s*[xX×*]\s*\d{2,4}(?:\s*[xX×*]\s*\d{2,4})?`.  The leading digit
count backtracks 4, 3, 2; the optional third dimension is greedy. -/
def matchSizeA (cs : List Char) : Option Nat :=
  firstSome (fun k =>
    if matchDigitsK k cs then
      match matchSepDims (cs.drop k) with
      | some t1 =>
        match matchSepDims (cs.drop (k + t1)) with
        | some t2 => some (k + t1 + t2)
        | none => some (k + t1)
      | none => none
    else none) [4, 3, 2]

/-- `(?:mm|cm|m)\b`: alternatives in source order, each checked with the
trailing word boundary. -/
def matchUnitMm (cs : List Char) : Option Nat :=
  if isPrefixCL ['m', 'm'] cs && wordBoundaryAfter (cs.drop 2) then some 2
  else if isPrefixCL ['c', 'm'] cs && wordBoundaryAfter (cs.drop 2) then some 2
  else if isPrefixCL ['m'] cs && wordBoundaryAfter (cs.drop 1) then some 1
  else none

/-- Branch (b) of `_SIZE_PATTERN`: `\d{2,4}\s*(?:mm|cm|m)\b`. -/
def matchSizeB (cs : List Char) : Option Nat :=
  firstSome (fun k =>
    if matchDigitsK k cs then
      let cs1 := cs.drop k
      let w := wsLen cs1
      match matchUnitMm (cs1.drop w) with
      | some u => some (k + w + u)
      | none => none
    else none) [4, 3, 2]

/-- `(?:인치|형)\b`. -/
def matchUnitInch (cs : List Char) : Option Nat :=
  if isPrefixCL ['인', '치'] cs && wordBoundaryAfter (cs.drop 2) then some 2
  else if isPrefixCL ['형'] cs && wordBoundaryAfter (cs.drop 1) then some 1
  else none

/-- Branch (c) of `_SIZE_PATTERN`: `\d{2,3}\s*(?:인치|형)\b`. -/
def matchSizeC (cs : List Char) : Option Nat :=
  firstSome (fun k =>
    if matchDigitsK k cs then
      let cs1 := cs.drop k
      let w := wsLen cs1
      match matchUnitInch (cs1.drop w) with
      | some u => some (k + w + u)
      | none => none
    else none) [3, 2]

/-- `_SIZE_PATTERN` anchored at the current position: alternation in source
order. -/
def sizeMatchAt (cs : List Char) : Option Nat :=
  match matchSizeA cs with
  | some n => some n
  | none =>
    match matchSizeB cs with
    | some n => some n
    | none => matchSizeC cs

/-- `_SIZE_PATTERN.search(title)`: leftmost match wins; returns
`match.group()`. -/
def sizeSearch : List Char → Option String
  | [] => none
  | c :: rest =>
    match sizeMatchAt (c :: rest) with
    | some n => some ⟨(c :: rest).take n⟩
    | none => sizeSearch rest

/-- `_COLOR_KEYWORDS` from `src/core/naver_api.py`. -/
def _COLOR_KEYWORDS : List String :=
  ["화이트", "블랙", "그레이", "아이보리", "우드", "월넛", "오크", "메이플",
   "브라운", "베이지", "네이비", "레드", "블루", "그린", "핑크", "옐로우",
   "실버", "골드", "로즈골드", "차콜", "크림", "라이트그레이", "다크그레이",
   "내추럴", "빈티지", "앤틱", "에쉬", "소노마", "라떼"]

/-- `_MATERIAL_KEYWORDS` from `src/core/naver_api.py`. -/
def _MATERIAL_KEYWORDS : List String :=
  ["원목", "강화유리", "스틸", "알루미늄", "철제", "메탈",
   "MDF", "PB", "LPM", "HPL", "멜라민", "하이글로시", "포밍",
   "패브릭", "메쉬", "가죽", "인조가죽", "PU", "PVC",
   "대나무", "합판", "집성목", "파티클보드"]

/-- `_FEATURE_KEYWORDS` from `src/core/naver_api.py`. -/
def _FEATURE_KEYWORDS : List String :=
  ["전동", "높낮이조절", "높낮이", "각도조절", "틸팅",
   "모션데스크", "스탠딩", "리프트", "승강",
   "USB", "콘센트", "무선충전", "LED",
   "수납", "서랍", "선반", "거치대",
   "접이식", "이동식", "바퀴", "캐스터",
   "헤드레스트", "팔걸이", "럼버서포트", "풋레스트",
   "인체공학", "듀얼모니터", "모니터암",
   "강화도어", "슬라이딩", "책장", "파티션"]

/-- `_TYPE_KEYWORDS` from `src/core/naver_api.py`. -/
def _TYPE_KEYWORDS : List String :=
  ["게이밍", "사무용", "학생용", "컴퓨터", "독서",
   "회의", "좌식", "입식", "코너", "L자", "ㄱ자",
   "1인용", "2인용", "4인용", "6인용",
   "싱글", "슈퍼싱글", "퀸", "킹"]

/-- `extract_features` from `src/core/naver_api.py` (lines 119-148):
python dict in insertion order 크기, 색상, 소재, 기능, 유형; each category
present only when detected. -/
def extract_features (title : String) : List (String × String) :=
  (match sizeSearch title.data with
   | some s => [("크기", pyStrip s)]
   | none => []) ++
  (let colors := _COLOR_KEYWORDS.filter (fun c => pyIn c title)
   if colors.isEmpty then [] else [("색상", pyJoin ", " colors)]) ++
  (let materials :=
     _MATERIAL_KEYWORDS.filter (fun m => pyIn (pyLower m) (pyLower title))
   if materials.isEmpty then [] else [("소재", pyJoin ", " materials)]) ++
  (let funcs := _FEATURE_KEYWORDS.filter (fun f => pyIn f title)
   if funcs.isEmpty then [] else [("기능", pyJoin ", " funcs)]) ++
  (let types := _TYPE_KEYWORDS.filter (fun t => pyIn t title)
   if types.isEmpty then [] else [("유형", pyJoin ", " types)])

/-- `features_to_str` from `src/core/naver_api.py` (lines 151-156). -/
def features_to_str (title : String) : String :=
  let feat := extract_features title
  if feat.isEmpty then "-"
  else pyJoin " | " (feat.map (fun kv => kv.1 ++ ":" ++ kv.2))

/-! ## AI analyzer boundary (`src/core/analyzer.py`, `analyze_market` and
`_parse_analysis_response`).

The external collaborators are parameters of the embedding: the configured
credential `ANTHROPIC_API_KEY` (environment), the AI response text (network),
and `json.loads` (python stdlib, modelled as a partial parse function into a
JSON value type — `none` is `json.JSONDecodeError`). -/

/-- A JSON value, the codomain of the modelled `json.loads`. -/
inductive Json where
  | null : Json
  | bool (b : Bool) : Json
  | num (n : Int) : Json
  | str (s : String) : Json
  | arr (elems : List Json) : Json
  | obj (fields : List (String × Json)) : Json

/-- `data.get(key, dflt)` on a parsed JSON object. -/
def jsonGetD (j : Json) (key : String) (dflt : Json) : Json :=
  match j with
  | .obj fields =>
    match fields.find? (fun kv => kv.1 == key) with
    | some kv => kv.2
    | none => dflt
  | _ => dflt

/-- The result built by `_parse_analysis_response`: in the source it is an
`AnalysisResult` whose `price_segments` (and other fields) hold the raw
values parsed from the AI's JSON, so the embedding types those fields as
`Json`. -/
structure AIAnalysisResult where
  keyword : String
  product_count : Nat
  price_segments : Json
  market_overview : Json
  white_space : Json
  competitive_landscape : Json
  key_features : Json
  raw_ai_response : String

/-- The code-fence stripping of `_parse_analysis_response` (lines 97-103):
strip, drop a leading fence (and an optional `json` tag), drop a trailing
fence. -/
def stripFences (response_text : String) : String :=
  let content := pyStrip response_text
  let content :=
    if content.startsWith "```" then
      let c := (content.splitOn "```").getD 1 ""
      if c.startsWith "json" then c.drop 4 else c
    else content
  if content.endsWith "```" then content.dropRight 3 else content

/-- `_parse_analysis_response` (lines 94-116).  `loads` is the modelled
`json.loads`; `Except.error` is an uncaught python exception (the source has
no try/except here, so it propagates to the caller).  A parse that yields a
non-object makes the subsequent `.get` attribute accesses raise. -/
def _parse_analysis_response (loads : String → Option Json) (keyword : String)
    (products : List Product) (response_text : String) :
    Except String AIAnalysisResult :=
  match loads (stripFences response_text) with
  | none => Except.error "json.JSONDecodeError"
  | some data =>
    match data with
    | Json.obj _ =>
      Except.ok
        { keyword := keyword
          product_count := products.length
          price_segments := jsonGetD data "price_segments" (Json.arr [])
          market_overview := jsonGetD data "market_overview" (Json.str "")
          white_space := jsonGetD data "white_space" (Json.arr [])
          competitive_landscape := jsonGetD data "competitive_landscape" (Json.str "")
          key_features := jsonGetD data "key_features" (Json.arr [])
          raw_ai_response := response_text }
    | _ => Except.error "AttributeError"

/-- `analyze_market` (lines 119-134).  `api_key` is `ANTHROPIC_API_KEY`
(python falsy test: the empty string means unconfigured); `ai_response_text`
is the text the external AI collaborator would return.  The two result
shapes (typed fallback result vs raw-JSON AI result) are a `Sum` in the
embedding; in the source both inhabit the `AnalysisResult` dataclass. -/
def analyze_market (api_key : String) (loads : String → Option Json)
    (ai_response_text : String) (keyword : String) (products : List Product) :
    Except String (AnalysisResult ⊕ AIAnalysisResult) :=
  if api_key == "" then
    Except.ok (Sum.inl (_fallback_analysis keyword products))
  else
    (_parse_analysis_response loads keyword products ai_response_text).map Sum.inr

/-! ## Shared helper values -/

/-- A `Product` with the fields the analyzer reads; used as concrete input in
witnesses. -/
def sampleProduct (pid title brand : String) (price : Int) : Product :=
  { title := title, link := "", image := "", lprice := price, hprice := 0,
    mall_name := "", product_id := pid, product_type := "1", brand := brand,
    maker := "", category1 := "", category2 := "", category3 := "",
    category4 := "" }

/-- Default segment for `headD`/`getLastD` in claim statements. -/
def dummySegment : PriceSegment :=
  { low := 0, high := 0, range_label := "", count := 0, avg_price := 0,
    characteristics := "", representative_brands := [] }

/-! ## Claim C2: the annotation parser -/

/-- C2: the annotation parser splits on commas, splits each part on the first
colon only, trims both sides, discards pairs with an empty trimmed side and
parts without a colon, and lets a later duplicate key overwrite an earlier
one.  Shown on the spec's concrete examples, plus a duplicate-key and a
second-colon instance. -/
theorem c2_parse_features_examples :
    parse_features_page2 "a:1, b:2" = [("a", "1"), ("b", "2")] ∧
    parse_features_page2 "a:1,b:2" = [("a", "1"), ("b", "2")] ∧
    parse_features_page2 " a : 1 , b : 2 " = [("a", "1"), ("b", "2")] ∧
    parse_features_page2 "a:1, novalue, :2, c:3" = [("a", "1"), ("c", "3")] ∧
    parse_features_page2 "a:1, a:2" = [("a", "2")] ∧
    parse_features_page2 "a:1:2, b:2" = [("a", "1:2"), ("b", "2")] := by
  decide

/-! ## Claim C7: the two page-local parsers agree -/

/-- C7: `parse_features` in `src/pages/2_시장_분석.py` and `parse_features` in
`src/pages/3_비교_분석.py` compute the same function on every input. -/
theorem c7_parse_features_agree :
    ∀ text : String, parse_features_page2 text = parse_features_page3 text :=
  fun _ => rfl

/-! ## Claims C4 and C5: the auto-fill extractor -/

/-- C4 counterexample: the title `"폴타입 거치대"` contains no `"모니터"`
substring, yet the extractor assigns the pole-type form (the source also
fires on the single substring `"폴타입"`), so pole-type is not assigned
*only* when both `"폴"` and `"모니터"` occur. -/
theorem c4_pole_counterexample :
    extract_features_from_title "폴타입 거치대" = "형태:폴타입" ∧
    pyIn "모니터" (pyLower "폴타입 거치대") = false := by
  decide

/-- C4 (amended): pole-type is assigned exactly when the lowered title
contains `"폴타입"`, or both `"폴"` and `"모니터"`; the other form categories
fire exactly when their substrings occur and every earlier category in the
priority order pole > stand > clamp > wall-mount failed; at most one form
value is emitted. -/
theorem c4_form_detection (title : String) :
    (formParts (pyLower title) = ["형태:폴타입"] ↔
      (pyIn "폴타입" (pyLower title) = true ∨
        (pyIn "폴" (pyLower title) = true ∧ pyIn "모니터" (pyLower title) = true))) ∧
    (formParts (pyLower title) = ["형태:스탠드형"] ↔
      (¬(pyIn "폴타입" (pyLower title) = true ∨
          (pyIn "폴" (pyLower title) = true ∧ pyIn "모니터" (pyLower title) = true)) ∧
        (pyIn "스탠드" (pyLower title) = true ∨ pyIn "스탠다드" (pyLower title) = true))) ∧
    (formParts (pyLower title) = ["형태:클램프형"] ↔
      (¬(pyIn "폴타입" (pyLower title) = true ∨
          (pyIn "폴" (pyLower title) = true ∧ pyIn "모니터" (pyLower title) = true)) ∧
        ¬(pyIn "스탠드" (pyLower title) = true ∨ pyIn "스탠다드" (pyLower title) = true) ∧
        pyIn "클램프" (pyLower title) = true)) ∧
    (formParts (pyLower title) = ["형태:벽걸이형"] ↔
      (¬(pyIn "폴타입" (pyLower title) = true ∨
          (pyIn "폴" (pyLower title) = true ∧ pyIn "모니터" (pyLower title) = true)) ∧
        ¬(pyIn "스탠드" (pyLower title) = true ∨ pyIn "스탠다드" (pyLower title) = true) ∧
        ¬(pyIn "클램프" (pyLower title) = true) ∧
        (pyIn "벽걸이" (pyLower title) = true ∨ pyIn "월마운트" (pyLower title) = true))) ∧
    (formParts (pyLower title)).length ≤ 1 ∧
    extract_features_from_title title =
      pyJoin ", " (gubunParts (pyLower title) ++ formParts (pyLower title) ++
        kgParts (pyLower title)) := by
  unfold formParts
  refine ⟨?_, ?_, ?_, ?_, ?_, rfl⟩ <;>
    · split_ifs <;> simp_all

/-- C5: the auto-fill extractor on the spec's example title, plus instances
showing the fixed field order, priority singular > dual (dual-or-double)
> triple, the decimal weight capture, and that undetected fields contribute
nothing. -/
theorem c5_autofill_examples :
    extract_features_from_title "모니터암 듀얼 폴타입 9kg" =
      "구분:듀얼, 형태:폴타입, 지탱무게:9kg" ∧
    extract_features_from_title "더블 모니터 거치대" = "구분:듀얼" ∧
    extract_features_from_title "트리플 싱글 암 5.5kg" = "구분:싱글, 지탱무게:5.5kg" ∧
    extract_features_from_title "성인용 책상" = "" := by
  decide

/-! ## Claim C3: the no-positive-price degrade case -/

/-- C3: when no product has a positive `lprice`, the fallback analyzer
returns the fixed "no price data" result (empty segments, fixed Korean
overview, empty white-space / landscape / key-features, `product_count` the
input length) instead of raising. -/
theorem c3_no_price_data (keyword : String) (products : List Product)
    (h : ∀ p ∈ products, p.lprice ≤ 0) :
    _fallback_analysis keyword products =
      { keyword := keyword
        product_count := products.length
        price_segments := []
        market_overview := "가격 데이터가 없어 분석할 수 없습니다."
        white_space := []
        competitive_landscape := ""
        key_features := [] } := by
  have hpos : posPrices products = [] := by
    unfold posPrices
    rw [List.filter_eq_nil_iff]
    intro a ha
    simp only [List.mem_map] at ha
    obtain ⟨p, hp, rfl⟩ := ha
    simpa using h p hp
  unfold _fallback_analysis sortedPrices
  rw [hpos]
  rfl

/-- Witness for C3 at a concrete zero-price product list. -/
theorem c3_no_price_data_witness :
    (∀ p ∈ [sampleProduct "p1" "의자" "" 0], p.lprice ≤ 0) ∧
    _fallback_analysis "의자" [sampleProduct "p1" "의자" "" 0] =
      { keyword := "의자"
        product_count := 1
        price_segments := []
        market_overview := "가격 데이터가 없어 분석할 수 없습니다."
        white_space := []
        competitive_landscape := ""
        key_features := [] } :=
  ⟨by decide, c3_no_price_data "의자" [sampleProduct "p1" "의자" "" 0] (by decide)⟩

/-! ## Claim C6: parse failures propagate; fallback iff no credential -/

/-- C6: with a configured credential, a malformed (non-JSON-parsable) AI
response makes `analyze_market` propagate the parse error — it never yields
the fallback analysis; the fallback analyzer is used exactly when no
credential is configured. -/
theorem c6_parse_error_propagates (api_key : String) (loads : String → Option Json)
    (ai_response_text keyword : String) (products : List Product) :
    (api_key = "" →
      analyze_market api_key loads ai_response_text keyword products =
        Except.ok (Sum.inl (_fallback_analysis keyword products))) ∧
    (api_key ≠ "" → loads (stripFences ai_response_text) = none →
      analyze_market api_key loads ai_response_text keyword products =
        Except.error "json.JSONDecodeError") ∧
    (api_key ≠ "" → ∀ r : AnalysisResult,
      analyze_market api_key loads ai_response_text keyword products ≠
        Except.ok (Sum.inl r)) ∧
    (api_key ≠ "" →
      analyze_market api_key loads ai_response_text keyword products =
        (_parse_analysis_response loads keyword products ai_response_text).map
          Sum.inr) := by
  unfold analyze_market
  refine ⟨?_, ?_, ?_, ?_⟩
  · intro hk
    simp [hk]
  · intro hk hl
    rw [if_neg (by simpa using hk)]
    unfold _parse_analysis_response
    rw [hl]
    rfl
  · intro hk r
    rw [if_neg (by simpa using hk)]
    cases _parse_analysis_response loads keyword products ai_response_text <;>
      simp [Except.map]
  · intro hk
    rw [if_neg (by simpa using hk)]

/-- Witness for C6: with a credential and a `loads` that fails, the error
propagates; with no credential, the fallback result is returned. -/
theorem c6_parse_error_propagates_witness :
    (("" : String) = "" ∧
      analyze_market "" (fun _ => none) "oops" "모니터암" [] =
        Except.ok (Sum.inl (_fallback_analysis "모니터암" []))) ∧
    (("sk-key" : String) ≠ "" ∧
      analyze_market "sk-key" (fun _ => none) "oops" "모니터암" [] =
        Except.error "json.JSONDecodeError") :=
  ⟨⟨rfl, (c6_parse_error_propagates "" (fun _ => none) "oops" "모니터암" []).1 rfl⟩,
   ⟨by decide,
    (c6_parse_error_propagates "sk-key" (fun _ => none) "oops" "모니터암" []).2.1
      (by decide) rfl⟩⟩

/-! ## Claim C9: the auto-fill operation is a frame on non-empty entries -/

theorem find?_map_upd_ne {β : Type} (k k' : String) (v : β) (h : ¬ k' = k) :
    ∀ d : List (String × β),
      (d.map (fun kv => if kv.1 == k then (k, v) else kv)).find?
          (fun kv => kv.1 == k') =
        d.find? (fun kv => kv.1 == k') := by
  intro d
  induction d with
  | nil => rfl
  | cons a d ih =>
    simp only [List.map_cons]
    by_cases ha : a.1 = k
    · rw [if_pos (by simpa using ha)]
      rw [List.find?_cons_of_neg _ (by simpa using fun he => h he.symm),
        List.find?_cons_of_neg _ (by simp [ha]; exact fun he => h he.symm)]
      exact ih
    · rw [if_neg (by simpa using ha)]
      by_cases ha' : a.1 = k'
      · rw [List.find?_cons_of_pos _ (by simpa using ha'),
          List.find?_cons_of_pos _ (by simpa using ha')]
      · rw [List.find?_cons_of_neg _ (by simpa using ha'),
          List.find?_cons_of_neg _ (by simpa using ha')]
        exact ih

theorem find?_map_upd_self {β : Type} (k : String) (v : β) :
    ∀ d : List (String × β), d.any (fun kv => kv.1 == k) = true →
      (d.map (fun kv => if kv.1 == k then (k, v) else kv)).find?
          (fun kv => kv.1 == k) = some (k, v) := by
  intro d
  induction d with
  | nil => intro hany; simp at hany
  | cons a d ih =>
    intro hany
    simp only [List.map_cons]
    by_cases ha : a.1 = k
    · rw [if_pos (by simpa using ha)]
      rw [List.find?_cons_of_pos _ (by simp)]
    · rw [if_neg (by simpa using ha)]
      rw [List.find?_cons_of_neg _ (by simpa using ha)]
      exact ih (by simpa [List.any_cons, ha] using hany)

theorem find?_dictSet_ne {β : Type} (d : List (String × β)) (k k' : String)
    (v : β) (h : ¬ k' = k) :
    (dictSet d k v).find? (fun kv => kv.1 == k') =
      d.find? (fun kv => kv.1 == k') := by
  unfold dictSet
  split
  · exact find?_map_upd_ne k k' v h d
  · rw [List.find?_append]
    have hone : List.find? (fun kv => kv.1 == k') [(k, v)] = none := by
      simp
      exact fun he => h he.symm
    rw [hone]
    cases d.find? (fun kv => kv.1 == k') <;> rfl

theorem dictGetD_dictSet_ne {β : Type} (d : List (String × β)) (k k' : String)
    (v dflt : β) (h : ¬ k' = k) :
    dictGetD (dictSet d k v) k' dflt = dictGetD d k' dflt := by
  unfold dictGetD
  rw [find?_dictSet_ne d k k' v h]

theorem find?_dictSet_self {β : Type} (d : List (String × β)) (k : String)
    (v : β) :
    (dictSet d k v).find? (fun kv => kv.1 == k) = some (k, v) := by
  unfold dictSet
  split
  · next hany => exact find?_map_upd_self k v d hany
  · next hany =>
    rw [List.find?_append]
    have hnone : List.find? (fun kv => kv.1 == k) d = none := by
      rw [List.find?_eq_none]
      intro x hx hpx
      exact hany (List.any_eq_true.mpr ⟨x, hx, hpx⟩)
    rw [hnone]
    simp

theorem dictGetD_dictSet_self {β : Type} (d : List (String × β)) (k : String)
    (v dflt : β) :
    dictGetD (dictSet d k v) k dflt = v := by
  unfold dictGetD
  rw [find?_dictSet_self d k v]

/-- An auto-fill step never touches the entry of a different product id, and
never touches an entry whose current features text is non-blank. -/
theorem autoFillStep_frame (m : List (String × FeatEntry)) (p : Product)
    (pid : String)
    (h : ¬ pid = p.product_id ∨
      ¬ pyStrip (featTextOf (dictGetD m pid (FeatEntry.str ""))) = "") :
    dictGetD (autoFillStep m p) pid (FeatEntry.str "") =
      dictGetD m pid (FeatEntry.str "") := by
  unfold autoFillStep
  rcases h with h | h
  · split
    · split
      · exact dictGetD_dictSet_ne _ _ _ _ _ h
      · rfl
    · rfl
  · by_cases hpid : pid = p.product_id
    · subst hpid
      rw [if_neg (by simpa using h)]
    · split
      · split
        · exact dictGetD_dictSet_ne _ _ _ _ _ hpid
        · rfl
      · rfl

/-- Every change the auto-fill fold makes to the entry of `pid` installs a
`FeatEntry.obj` built from some listed product with that id whose title
extraction is nonempty. -/
theorem autoFill_change (products : List Product) :
    ∀ (m : List (String × FeatEntry)) (pid : String),
      dictGetD (autoFill m products) pid (FeatEntry.str "") =
        dictGetD m pid (FeatEntry.str "") ∨
      ∃ p, p ∈ products ∧ p.product_id = pid ∧
        extract_features_from_title p.title ≠ "" ∧
        dictGetD (autoFill m products) pid (FeatEntry.str "") =
          FeatEntry.obj (extract_features_from_title p.title) p.title := by
  induction products with
  | nil => intro m pid; exact Or.inl rfl
  | cons p products ih =>
    intro m pid
    have hstep : autoFill m (p :: products) = autoFill (autoFillStep m p) products := rfl
    rcases ih (autoFillStep m p) pid with h | ⟨q, hq, hqid, hqex, hqval⟩
    · rw [hstep, h]
      by_cases hpid : pid = p.product_id
      · subst hpid
        unfold autoFillStep
        split
        · split
          · next hex =>
            refine Or.inr ⟨p, List.mem_cons_self _ _, rfl, by simpa using hex, ?_⟩
            exact dictGetD_dictSet_self _ _ _ _
          · exact Or.inl rfl
        · exact Or.inl rfl
      · rw [autoFillStep_frame m p pid (Or.inl hpid)]
        exact Or.inl rfl
    · exact Or.inr ⟨q, List.mem_cons_of_mem _ hq, hqid, hqex, by rw [hstep]; exact hqval⟩

/-- C9: the auto-fill operation modifies only entries whose stored features
string is empty or whitespace-only; any entry it does change is overwritten
with a nonempty extraction from some listed product with that id. -/
theorem c9_autofill_only_blank (m : List (String × FeatEntry))
    (products : List Product) (pid : String) :
    (pyStrip (featTextOf (dictGetD m pid (FeatEntry.str ""))) ≠ "" →
      dictGetD (autoFill m products) pid (FeatEntry.str "") =
        dictGetD m pid (FeatEntry.str "")) ∧
    (dictGetD (autoFill m products) pid (FeatEntry.str "") ≠
        dictGetD m pid (FeatEntry.str "") →
      ∃ p, p ∈ products ∧ p.product_id = pid ∧
        extract_features_from_title p.title ≠ "" ∧
        dictGetD (autoFill m products) pid (FeatEntry.str "") =
          FeatEntry.obj (extract_features_from_title p.title) p.title) := by
  constructor
  · intro hfull
    induction products generalizing m with
    | nil => rfl
    | cons p products ih =>
      have hstep : autoFill m (p :: products) = autoFill (autoFillStep m p) products := rfl
      have hframe := autoFillStep_frame m p pid (Or.inr hfull)
      rw [hstep, ih (autoFillStep m p) (by rw [hframe]; exact hfull), hframe]
  · intro hchange
    rcases autoFill_change products m pid with h | h
    · exact absurd h hchange
    · exact h

/-- Witness for C9: a non-blank entry survives the auto-fill unchanged, and a
changed blank entry holds the nonempty extraction. -/
theorem c9_autofill_only_blank_witness :
    (pyStrip (featTextOf (dictGetD [("p1", FeatEntry.str "손입력")] "p1"
        (FeatEntry.str ""))) ≠ "" ∧
      dictGetD (autoFill [("p1", FeatEntry.str "손입력")]
          [sampleProduct "p1" "모니터암 듀얼 폴타입 9kg" "" 100]) "p1"
        (FeatEntry.str "") =
        dictGetD [("p1", FeatEntry.str "손입력")] "p1" (FeatEntry.str "")) ∧
    (dictGetD (autoFill []
          [sampleProduct "p2" "모니터암 듀얼 폴타입 9kg" "" 100]) "p2"
        (FeatEntry.str "") ≠ dictGetD [] "p2" (FeatEntry.str "") ∧
      ∃ p, p ∈ [sampleProduct "p2" "모니터암 듀얼 폴타입 9kg" "" 100] ∧
        p.product_id = "p2" ∧
        extract_features_from_title p.title ≠ "" ∧
        dictGetD (autoFill []
            [sampleProduct "p2" "모니터암 듀얼 폴타입 9kg" "" 100]) "p2"
          (FeatEntry.str "") =
          FeatEntry.obj (extract_features_from_title p.title) p.title) :=
  ⟨⟨by decide,
    (c9_autofill_only_blank [("p1", FeatEntry.str "손입력")]
        [sampleProduct "p1" "모니터암 듀얼 폴타입 9kg" "" 100] "p1").1 (by decide)⟩,
   ⟨by decide,
    (c9_autofill_only_blank []
        [sampleProduct "p2" "모니터암 듀얼 폴타입 9kg" "" 100] "p2").2 (by decide)⟩⟩

/-! ## Claim C10: segment averages lie within the segment bounds -/

theorem mkSegment_low (products : List Product) (i : Nat) (low high : Int) :
    (mkSegment products i low high).low = low := rfl

theorem mkSegment_high (products : List Product) (i : Nat) (low high : Int) :
    (mkSegment products i low high).high = high := rfl

theorem mkSegment_count (products : List Product) (i : Nat) (low high : Int) :
    (mkSegment products i low high).count =
      (products.filter
        (fun p => decide (low ≤ p.lprice) && decide (p.lprice ≤ high))).length := rfl

theorem mkSegment_avg (products : List Product) (i : Nat) (low high : Int) :
    (mkSegment products i low high).avg_price =
      ((products.filter
          (fun p => decide (low ≤ p.lprice) && decide (p.lprice ≤ high))).map
        Product.lprice).sum /
      ((max (products.filter
          (fun p => decide (low ≤ p.lprice) && decide (p.lprice ≤ high))).length 1 :
            Nat) : Int) := rfl

/-- The fallback segments in the some-positive-price case, written out with
the quartile boundaries as indices into the sorted positive price list. -/
theorem fallback_price_segments (keyword : String) (products : List Product)
    (h : ¬ sortedPrices products = []) :
    (_fallback_analysis keyword products).price_segments =
      [mkSegment products 0 ((sortedPrices products).getD 0 0)
         ((sortedPrices products).getD ((sortedPrices products).length / 4) 0),
       mkSegment products 1
         ((sortedPrices products).getD ((sortedPrices products).length / 4) 0)
         ((sortedPrices products).getD ((sortedPrices products).length / 2) 0),
       mkSegment products 2
         ((sortedPrices products).getD ((sortedPrices products).length / 2) 0)
         ((sortedPrices products).getD (3 * (sortedPrices products).length / 4) 0),
       mkSegment products 3
         ((sortedPrices products).getD (3 * (sortedPrices products).length / 4) 0)
         ((sortedPrices products).getD ((sortedPrices products).length - 1) 0)] := by
  simp only [_fallback_analysis]
  rw [if_neg h]
  rfl

theorem fallback_price_segments_nil (keyword : String) (products : List Product)
    (h : sortedPrices products = []) :
    (_fallback_analysis keyword products).price_segments = [] := by
  simp only [_fallback_analysis]
  rw [if_pos h]

theorem sum_bounds_of_mem {l : List Int} {lo hi : Int}
    (h : ∀ x ∈ l, lo ≤ x ∧ x ≤ hi) :
    lo * l.length ≤ l.sum ∧ l.sum ≤ hi * l.length := by
  induction l with
  | nil => simp
  | cons a l ih =>
    have ha := h a (List.mem_cons_self _ _)
    have ih' := ih fun x hx => h x (List.mem_cons_of_mem _ hx)
    simp only [List.sum_cons, List.length_cons]
    push_cast
    constructor <;> nlinarith [ih'.1, ih'.2, ha.1, ha.2]

/-- The average of a segment's member prices (integer division of their sum
by the member count) lies between the segment bounds when there is at least
one member, and is `0` when there is none. -/
theorem mkSegment_avg_price (products : List Product) (i : Nat) (low high : Int) :
    ((mkSegment products i low high).count = 0 →
      (mkSegment products i low high).avg_price = 0) ∧
    ((mkSegment products i low high).count ≠ 0 →
      low ≤ (mkSegment products i low high).avg_price ∧
        (mkSegment products i low high).avg_price ≤ high) := by
  constructor
  · intro h0
    have hnil :
        products.filter (fun p => decide (low ≤ p.lprice) && decide (p.lprice ≤ high)) =
          [] :=
      List.length_eq_zero.mp (by rw [← mkSegment_count products i low high]; exact h0)
    rw [mkSegment_avg, hnil]
    rfl
  · intro hne
    have hlen :
        (products.filter
          (fun p => decide (low ≤ p.lprice) && decide (p.lprice ≤ high))).length ≠ 0 := by
      rw [← mkSegment_count products i low high]
      exact hne
    set fl :=
      products.filter (fun p => decide (low ≤ p.lprice) && decide (p.lprice ≤ high))
      with hfl
    have hmax : (max fl.length 1) = fl.length := by omega
    have hbounds : ∀ x ∈ fl.map Product.lprice, low ≤ x ∧ x ≤ high := by
      intro x hx
      simp only [List.mem_map] at hx
      obtain ⟨p, hp, rfl⟩ := hx
      have hmem := (List.mem_filter.mp hp).2
      simp only [Bool.and_eq_true, decide_eq_true_eq] at hmem
      exact hmem
    have hsums := sum_bounds_of_mem hbounds
    rw [List.length_map] at hsums
    have hpos : (0 : Int) < (fl.length : Int) := by
      exact_mod_cast Nat.pos_of_ne_zero hlen
    have havg :
        (mkSegment products i low high).avg_price =
          (fl.map Product.lprice).sum / (fl.length : Int) := by
      rw [mkSegment_avg, ← hfl, hmax]
    constructor
    · rw [havg, Int.le_ediv_iff_mul_le hpos]
      exact hsums.1
    · rw [havg]
      have hdiv := Int.ediv_le_ediv hpos hsums.2
      rwa [Int.mul_ediv_cancel _ (ne_of_gt hpos)] at hdiv

/-- C10: every fallback segment with at least one member has its truncated
mean price inside the segment's inclusive bounds; a memberless segment has
average 0. -/
theorem c10_avg_within_bounds (keyword : String) (products : List Product)
    (seg : PriceSegment)
    (hseg : seg ∈ (_fallback_analysis keyword products).price_segments) :
    (seg.count = 0 → seg.avg_price = 0) ∧
    (seg.count ≠ 0 → seg.low ≤ seg.avg_price ∧ seg.avg_price ≤ seg.high) := by
  by_cases h : sortedPrices products = []
  · rw [fallback_price_segments_nil keyword products h] at hseg
    exact absurd hseg (List.not_mem_nil _)
  · rw [fallback_price_segments keyword products h] at hseg
    simp only [List.mem_cons, List.not_mem_nil, or_false] at hseg
    rcases hseg with rfl | rfl | rfl | rfl <;>
      exact mkSegment_avg_price products _ _ _

/-- Witness for C10 at a concrete four-product list (first segment:
prices 10 and 20, average 15). -/
theorem c10_avg_within_bounds_witness :
    ((_fallback_analysis "모니터암"
        [sampleProduct "p1" "" "" 10, sampleProduct "p2" "" "" 20,
         sampleProduct "p3" "" "" 30, sampleProduct "p4" "" "" 40]).price_segments.getD
        0 dummySegment ∈
      (_fallback_analysis "모니터암"
        [sampleProduct "p1" "" "" 10, sampleProduct "p2" "" "" 20,
         sampleProduct "p3" "" "" 30, sampleProduct "p4" "" "" 40]).price_segments) ∧
    (((_fallback_analysis "모니터암"
        [sampleProduct "p1" "" "" 10, sampleProduct "p2" "" "" 20,
         sampleProduct "p3" "" "" 30, sampleProduct "p4" "" "" 40]).price_segments.getD
        0 dummySegment).low ≤
      ((_fallback_analysis "모니터암"
        [sampleProduct "p1" "" "" 10, sampleProduct "p2" "" "" 20,
         sampleProduct "p3" "" "" 30, sampleProduct "p4" "" "" 40]).price_segments.getD
        0 dummySegment).avg_price ∧
      ((_fallback_analysis "모니터암"
        [sampleProduct "p1" "" "" 10, sampleProduct "p2" "" "" 20,
         sampleProduct "p3" "" "" 30, sampleProduct "p4" "" "" 40]).price_segments.getD
        0 dummySegment).avg_price ≤
      ((_fallback_analysis "모니터암"
        [sampleProduct "p1" "" "" 10, sampleProduct "p2" "" "" 20,
         sampleProduct "p3" "" "" 30, sampleProduct "p4" "" "" 40]).price_segments.getD
        0 dummySegment).high) :=
  ⟨by decide,
   (c10_avg_within_bounds "모니터암"
      [sampleProduct "p1" "" "" 10, sampleProduct "p2" "" "" 20,
       sampleProduct "p3" "" "" 30, sampleProduct "p4" "" "" 40]
      _ (by decide)).2 (by decide)⟩

/-! ## Claim C1: quartile segmentation of the fallback analyzer -/

theorem sortedPrices_sorted (products : List Product) :
    (sortedPrices products).Sorted (fun a b => a ≤ b) :=
  List.sorted_insertionSort _ _

theorem mem_sortedPrices {products : List Product} {x : Int} :
    x ∈ sortedPrices products ↔ x ∈ posPrices products :=
  List.mem_insertionSort _

theorem length_sortedPrices (products : List Product) :
    (sortedPrices products).length = (posPrices products).length :=
  List.length_insertionSort _ _

theorem posPrices_of_pos {products : List Product}
    (hpos : ∀ p ∈ products, 0 < p.lprice) :
    posPrices products = products.map Product.lprice := by
  unfold posPrices
  rw [List.filter_eq_self]
  intro a ha
  simp only [List.mem_map] at ha
  obtain ⟨p, hp, rfl⟩ := ha
  simpa using hpos p hp

theorem sorted_getD_mono {l : List Int} (hs : l.Sorted (fun a b => a ≤ b))
    {i j : Nat} (hij : i ≤ j) (hj : j < l.length) : l.getD i 0 ≤ l.getD j 0 := by
  have hi : i < l.length := Nat.lt_of_le_of_lt hij hj
  rw [List.getD_eq_get l 0 hi, List.getD_eq_get l 0 hj]
  exact hs.rel_get_of_le (Fin.mk_le_mk.mpr hij)

theorem sorted_getD_zero_le {l : List Int} (hs : l.Sorted (fun a b => a ≤ b))
    {x : Int} (hx : x ∈ l) : l.getD 0 0 ≤ x := by
  obtain ⟨⟨i, hi⟩, rfl⟩ := List.mem_iff_get.mp hx
  have h0 : 0 < l.length := Nat.lt_of_le_of_lt (Nat.zero_le i) hi
  rw [List.getD_eq_get l 0 h0]
  exact hs.rel_get_of_le (Fin.mk_le_mk.mpr (Nat.zero_le i))

theorem sorted_le_getD_last {l : List Int} (hs : l.Sorted (fun a b => a ≤ b))
    {x : Int} (hx : x ∈ l) : x ≤ l.getD (l.length - 1) 0 := by
  obtain ⟨⟨i, hi⟩, rfl⟩ := List.mem_iff_get.mp hx
  have hlast : l.length - 1 < l.length := by omega
  rw [List.getD_eq_get l 0 hlast]
  exact hs.rel_get_of_le (Fin.mk_le_mk.mpr (by omega))

theorem getD_mem_of_lt {l : List Int} {i : Nat} (hi : i < l.length) :
    l.getD i 0 ∈ l := by
  rw [List.getD_eq_get l 0 hi]
  exact List.get_mem l i hi

/-- If every element satisfies one of four predicates, the four filtered
sublists together are at least as long as the list (double counting
allowed). -/
theorem length_le_sum_four_filters {α : Type} (l : List α)
    (p0 p1 p2 p3 : α → Bool)
    (h : ∀ a ∈ l, p0 a = true ∨ p1 a = true ∨ p2 a = true ∨ p3 a = true) :
    l.length ≤ (l.filter p0).length + (l.filter p1).length +
      (l.filter p2).length + (l.filter p3).length := by
  induction l with
  | nil => simp
  | cons a l ih =>
    have ha := h a (List.mem_cons_self _ _)
    have ih' := ih fun b hb => h b (List.mem_cons_of_mem _ hb)
    simp only [List.filter_cons, List.length_cons]
    split_ifs <;> (try simp only [List.length_cons]) <;>
      first
        | omega
        | (exfalso; rcases ha with h' | h' | h' | h' <;> simp_all)

theorem cover_four {a b c d e x : Int} (h1 : a ≤ b) (h2 : b ≤ c) (h3 : c ≤ d)
    (h4 : d ≤ e) (hlo : a ≤ x) (hhi : x ≤ e) :
    (a ≤ x ∧ x ≤ b) ∨ (b ≤ x ∧ x ≤ c) ∨ (c ≤ x ∧ x ≤ d) ∨
      (d ≤ x ∧ x ≤ e) := by
  omega

/-- C1: on a list of at least four products with distinct positive prices,
the fallback analyzer yields exactly 4 segments; the five boundary values
are the sorted positive prices at indices 0, n/4, n/2, 3n/4, n-1; each
segment counts exactly the products whose price lies in its inclusive
bounds; the counts sum to at least the number of products; the bounds are
non-decreasing (adjacent segments share a boundary), the first low is the
minimum positive price and the last high the maximum. -/
theorem c1_fallback_quartiles (keyword : String) (products : List Product)
    (ps : List Int) (n : Nat) (res : AnalysisResult)
    (hps : ps = sortedPrices products) (hn : n = ps.length)
    (hres : res = _fallback_analysis keyword products)
    (h4 : 4 ≤ products.length)
    (hpos : ∀ p ∈ products, 0 < p.lprice)
    (hdst : (products.map Product.lprice).Nodup) :
    res.price_segments.length = 4 ∧
    res.price_segments.map (fun s => (s.low, s.high)) =
      [(ps.getD 0 0, ps.getD (n / 4) 0),
       (ps.getD (n / 4) 0, ps.getD (n / 2) 0),
       (ps.getD (n / 2) 0, ps.getD (3 * n / 4) 0),
       (ps.getD (3 * n / 4) 0, ps.getD (n - 1) 0)] ∧
    (∀ seg ∈ res.price_segments,
      seg.count = (products.filter
        (fun p => decide (seg.low ≤ p.lprice) && decide (p.lprice ≤ seg.high))).length) ∧
    products.length ≤ (res.price_segments.map PriceSegment.count).sum ∧
    (∀ seg ∈ res.price_segments, seg.low ≤ seg.high) ∧
    res.price_segments.Chain' (fun a b => a.high = b.low) ∧
    ((res.price_segments.getD 0 dummySegment).low ∈ posPrices products ∧
      ∀ x ∈ posPrices products, (res.price_segments.getD 0 dummySegment).low ≤ x) ∧
    ((res.price_segments.getD 3 dummySegment).high ∈ posPrices products ∧
      ∀ x ∈ posPrices products, x ≤ (res.price_segments.getD 3 dummySegment).high) := by
  subst hres hn hps
  have hlen : (sortedPrices products).length = products.length := by
    rw [length_sortedPrices, posPrices_of_pos hpos, List.length_map]
  have hne : ¬ sortedPrices products = [] := by
    intro hnil
    rw [hnil] at hlen
    simp at hlen
    omega
  have h4' : 4 ≤ (sortedPrices products).length := by omega
  have hsorted := sortedPrices_sorted products
  have hmemS : ∀ p ∈ products, p.lprice ∈ sortedPrices products := by
    intro p hp
    rw [mem_sortedPrices, posPrices_of_pos hpos]
    exact List.mem_map_of_mem _ hp
  have hq01 : (sortedPrices products).getD 0 0 ≤
      (sortedPrices products).getD ((sortedPrices products).length / 4) 0 :=
    sorted_getD_mono hsorted (by omega) (by omega)
  have hq12 : (sortedPrices products).getD ((sortedPrices products).length / 4) 0 ≤
      (sortedPrices products).getD ((sortedPrices products).length / 2) 0 :=
    sorted_getD_mono hsorted (by omega) (by omega)
  have hq23 : (sortedPrices products).getD ((sortedPrices products).length / 2) 0 ≤
      (sortedPrices products).getD (3 * (sortedPrices products).length / 4) 0 :=
    sorted_getD_mono hsorted (by omega) (by omega)
  have hq34 : (sortedPrices products).getD (3 * (sortedPrices products).length / 4) 0 ≤
      (sortedPrices products).getD ((sortedPrices products).length - 1) 0 :=
    sorted_getD_mono hsorted (by omega) (by omega)
  have hsegs := fallback_price_segments keyword products hne
  refine ⟨?_, ?_, ?_, ?_, ?_, ?_, ?_, ?_⟩
  · rw [hsegs]; rfl
  · rw [hsegs]; rfl
  · rw [hsegs]
    intro seg hseg
    simp only [List.mem_cons, List.not_mem_nil, or_false] at hseg
    rcases hseg with rfl | rfl | rfl | rfl <;> rfl
  · rw [hsegs]
    have hcover : ∀ p ∈ products,
        (decide ((sortedPrices products).getD 0 0 ≤ p.lprice) &&
          decide (p.lprice ≤ (sortedPrices products).getD
            ((sortedPrices products).length / 4) 0)) = true ∨
        (decide ((sortedPrices products).getD
            ((sortedPrices products).length / 4) 0 ≤ p.lprice) &&
          decide (p.lprice ≤ (sortedPrices products).getD
            ((sortedPrices products).length / 2) 0)) = true ∨
        (decide ((sortedPrices products).getD
            ((sortedPrices products).length / 2) 0 ≤ p.lprice) &&
          decide (p.lprice ≤ (sortedPrices products).getD
            (3 * (sortedPrices products).length / 4) 0)) = true ∨
        (decide ((sortedPrices products).getD
            (3 * (sortedPrices products).length / 4) 0 ≤ p.lprice) &&
          decide (p.lprice ≤ (sortedPrices products).getD
            ((sortedPrices products).length - 1) 0)) = true := by
      intro p hp
      have hlo := sorted_getD_zero_le hsorted (hmemS p hp)
      have hhi := sorted_le_getD_last hsorted (hmemS p hp)
      rcases cover_four hq01 hq12 hq23 hq34 hlo hhi with h' | h' | h' | h'
      · exact Or.inl
          (by simp only [Bool.and_eq_true, decide_eq_true_eq]; exact h')
      · exact Or.inr (Or.inl
          (by simp only [Bool.and_eq_true, decide_eq_true_eq]; exact h'))
      · exact Or.inr (Or.inr (Or.inl
          (by simp only [Bool.and_eq_true, decide_eq_true_eq]; exact h')))
      · exact Or.inr (Or.inr (Or.inr
          (by simp only [Bool.and_eq_true, decide_eq_true_eq]; exact h')))
    have hcount := length_le_sum_four_filters products _ _ _ _ hcover
    simp only [List.map_cons, List.map_nil, List.sum_cons, List.sum_nil,
      mkSegment_count]
    omega
  · rw [hsegs]
    intro seg hseg
    simp only [List.mem_cons, List.not_mem_nil, or_false] at hseg
    rcases hseg with rfl | rfl | rfl | rfl
    · exact hq01
    · exact hq12
    · exact hq23
    · exact hq34
  · rw [hsegs]
    simp only [List.chain'_cons, List.chain'_singleton, and_true]
    exact ⟨rfl, rfl, rfl⟩
  · rw [hsegs]
    constructor
    · exact mem_sortedPrices.mp (getD_mem_of_lt (by omega))
    · intro x hx
      exact sorted_getD_zero_le hsorted (mem_sortedPrices.mpr hx)
  · rw [hsegs]
    constructor
    · exact mem_sortedPrices.mp (getD_mem_of_lt (by omega))
    · intro x hx
      exact sorted_le_getD_last hsorted (mem_sortedPrices.mpr hx)

/-- Witness for C1 on four products with distinct positive prices. -/
theorem c1_fallback_quartiles_witness :
    (4 ≤ ([sampleProduct "p1" "" "" 10, sampleProduct "p2" "" "" 20,
           sampleProduct "p3" "" "" 30, sampleProduct "p4" "" "" 40] :
        List Product).length) ∧
    (_fallback_analysis "모니터암"
        [sampleProduct "p1" "" "" 10, sampleProduct "p2" "" "" 20,
         sampleProduct "p3" "" "" 30,
         sampleProduct "p4" "" "" 40]).price_segments.length = 4 :=
  ⟨by decide,
   (c1_fallback_quartiles "모니터암"
      [sampleProduct "p1" "" "" 10, sampleProduct "p2" "" "" 20,
       sampleProduct "p3" "" "" 30, sampleProduct "p4" "" "" 40]
      _ _ _ rfl rfl rfl (by decide) (by decide) (by decide)).1⟩

/-! ## Claim C8: the naver_api feature extractor -/

theorem firstSome_eq_some {α β : Type} {f : α → Option β} {b : β} :
    ∀ {l : List α}, firstSome f l = some b → ∃ a, a ∈ l ∧ f a = some b := by
  intro l
  induction l with
  | nil => intro h; exact absurd h (by simp [firstSome])
  | cons a l ih =>
    intro h
    unfold firstSome at h
    cases hfa : f a with
    | some b' =>
      rw [hfa] at h
      exact ⟨a, List.mem_cons_self _ _, by rw [hfa]; exact h⟩
    | none =>
      rw [hfa] at h
      obtain ⟨x, hx, hfx⟩ := ih h
      exact ⟨x, List.mem_cons_of_mem _ hx, hfx⟩

theorem matchDigitsK_head {k : Nat} {cs : List Char} (hk : 1 ≤ k)
    (h : matchDigitsK k cs = true) :
    ∃ c rest, cs = c :: rest ∧ c.isDigit = true := by
  unfold matchDigitsK at h
  simp only [Bool.and_eq_true, decide_eq_true_eq] at h
  obtain ⟨hlen, hall⟩ := h
  cases cs with
  | nil => simp at hlen; omega
  | cons c rest =>
    refine ⟨c, rest, rfl, ?_⟩
    have hcmem : c ∈ (c :: rest).take k := by
      cases k with
      | zero => omega
      | succ k => simp [List.take_succ_cons]
    exact List.all_eq_true.mp hall c hcmem

theorem matchSizeA_spec {cs : List Char} {n : Nat} (h : matchSizeA cs = some n) :
    (∃ c rest, cs = c :: rest ∧ c.isDigit = true) ∧ 1 ≤ n := by
  obtain ⟨k, hk, hfk⟩ := firstSome_eq_some h
  have hk1 : 1 ≤ k := by
    simp only [List.mem_cons, List.not_mem_nil, or_false] at hk
    rcases hk with rfl | rfl | rfl <;> omega
  by_cases hd : matchDigitsK k cs = true
  · simp only [hd, if_true] at hfk
    refine ⟨matchDigitsK_head hk1 hd, ?_⟩
    cases h1 : matchSepDims (cs.drop k) with
    | none => rw [h1] at hfk; exact absurd hfk (by simp)
    | some t1 =>
      rw [h1] at hfk
      dsimp only at hfk
      cases h2 : matchSepDims (cs.drop (k + t1)) with
      | none =>
        rw [h2] at hfk
        injection hfk with hn
        omega
      | some t2 =>
        rw [h2] at hfk
        injection hfk with hn
        omega
  · simp only [Bool.not_eq_true] at hd
    rw [hd] at hfk
    exact absurd hfk (by simp)

theorem matchSizeB_spec {cs : List Char} {n : Nat} (h : matchSizeB cs = some n) :
    (∃ c rest, cs = c :: rest ∧ c.isDigit = true) ∧ 1 ≤ n := by
  obtain ⟨k, hk, hfk⟩ := firstSome_eq_some h
  have hk1 : 1 ≤ k := by
    simp only [List.mem_cons, List.not_mem_nil, or_false] at hk
    rcases hk with rfl | rfl | rfl <;> omega
  by_cases hd : matchDigitsK k cs = true
  · simp only [hd, if_true] at hfk
    refine ⟨matchDigitsK_head hk1 hd, ?_⟩
    cases h1 : matchUnitMm ((cs.drop k).drop (wsLen (cs.drop k))) with
    | none => rw [h1] at hfk; exact absurd hfk (by simp)
    | some u =>
      rw [h1] at hfk
      injection hfk with hn
      omega
  · simp only [Bool.not_eq_true] at hd
    rw [hd] at hfk
    exact absurd hfk (by simp)

theorem matchSizeC_spec {cs : List Char} {n : Nat} (h : matchSizeC cs = some n) :
    (∃ c rest, cs = c :: rest ∧ c.isDigit = true) ∧ 1 ≤ n := by
  obtain ⟨k, hk, hfk⟩ := firstSome_eq_some h
  have hk1 : 1 ≤ k := by
    simp only [List.mem_cons, List.not_mem_nil, or_false] at hk
    rcases hk with rfl | rfl <;> omega
  by_cases hd : matchDigitsK k cs = true
  · simp only [hd, if_true] at hfk
    refine ⟨matchDigitsK_head hk1 hd, ?_⟩
    cases h1 : matchUnitInch ((cs.drop k).drop (wsLen (cs.drop k))) with
    | none => rw [h1] at hfk; exact absurd hfk (by simp)
    | some u =>
      rw [h1] at hfk
      injection hfk with hn
      omega
  · simp only [Bool.not_eq_true] at hd
    rw [hd] at hfk
    exact absurd hfk (by simp)

theorem sizeMatchAt_spec {cs : List Char} {n : Nat} (h : sizeMatchAt cs = some n) :
    (∃ c rest, cs = c :: rest ∧ c.isDigit = true) ∧ 1 ≤ n := by
  unfold sizeMatchAt at h
  cases hA : matchSizeA cs with
  | some m => rw [hA] at h; injection h with h'; subst h'; exact matchSizeA_spec hA
  | none =>
    rw [hA] at h
    cases hB : matchSizeB cs with
    | some m => rw [hB] at h; injection h with h'; subst h'; exact matchSizeB_spec hB
    | none =>
      rw [hB] at h
      exact matchSizeC_spec h

theorem isDigit_not_ws {c : Char} (h : c.isDigit = true) :
    c.isWhitespace = false := by
  by_contra hw
  simp only [Bool.not_eq_false] at hw
  unfold Char.isWhitespace at hw
  simp only [Bool.or_eq_true, decide_eq_true_eq] at hw
  rcases hw with ((h' | h') | h') | h' <;> subst h' <;> exact absurd h (by decide)

theorem mem_dropWhile_of_not_ws {c : Char} :
    ∀ {cs : List Char}, c ∈ cs → c.isWhitespace = false →
      c ∈ cs.dropWhile Char.isWhitespace := by
  intro cs
  induction cs with
  | nil => intro h _; exact absurd h (List.not_mem_nil _)
  | cons a l ih =>
    intro hmem hws
    rw [List.dropWhile_cons]
    split
    · next ha =>
      rcases List.mem_cons.mp hmem with rfl | hmem'
      · rw [ha] at hws; cases hws
      · exact ih hmem' hws
    · exact hmem

theorem pyStripList_ne_nil {cs : List Char} {c : Char} (hc : c ∈ cs)
    (hws : c.isWhitespace = false) : pyStripList cs ≠ [] := by
  unfold pyStripList
  have h1 : c ∈ cs.dropWhile Char.isWhitespace := mem_dropWhile_of_not_ws hc hws
  have h2 : c ∈ (cs.dropWhile Char.isWhitespace).reverse := List.mem_reverse.mpr h1
  have h3 : c ∈ (cs.dropWhile Char.isWhitespace).reverse.dropWhile Char.isWhitespace :=
    mem_dropWhile_of_not_ws h2 hws
  have h4 := List.mem_reverse.mpr h3
  exact List.ne_nil_of_mem h4

theorem pyStrip_ne_empty {s : String} {c : Char} (hc : c ∈ s.data)
    (hws : c.isWhitespace = false) : pyStrip s ≠ "" := by
  intro h
  unfold pyStrip at h
  have hdata : pyStripList s.data = [] := by
    have := String.ext_iff.mp h
    simpa using this
  exact pyStripList_ne_nil hc hws hdata

/-- A successful `_SIZE_PATTERN.search` yields a string that is nonempty even
after stripping: the match starts with a digit. -/
theorem sizeSearch_strip_ne_empty :
    ∀ {cs : List Char} {s : String}, sizeSearch cs = some s → pyStrip s ≠ "" := by
  intro cs
  induction cs with
  | nil => intro s h; exact absurd h (by simp [sizeSearch])
  | cons c rest ih =>
    intro s h
    unfold sizeSearch at h
    cases hm : sizeMatchAt (c :: rest) with
    | some n =>
      rw [hm] at h
      injection h with hs
      obtain ⟨⟨c', rest', hcons, hdig⟩, hn⟩ := sizeMatchAt_spec hm
      have hc : c' = c := by injection hcons with h1 _; exact h1.symm
      subst hc
      have hmem : c' ∈ s.data := by
        rw [← hs]
        show c' ∈ (c' :: rest).take n
        cases n with
        | zero => omega
        | succ n => simp [List.take_succ_cons]
      exact pyStrip_ne_empty hmem (isDigit_not_ws hdig)
    | none =>
      rw [hm] at h
      exact ih h

theorem pyJoin_ne_empty {sep : String} :
    ∀ {l : List String}, l ≠ [] → (∀ s ∈ l, s ≠ "") → pyJoin sep l ≠ "" := by
  intro l
  match l with
  | [] => intro h _; exact absurd rfl h
  | [x] =>
    intro _ h
    simpa [pyJoin] using h x (by simp)
  | x :: y :: xs =>
    intro _ h
    show x ++ sep ++ pyJoin sep (y :: xs) ≠ ""
    intro hemp
    have hx := h x (by simp)
    have hlen : (x ++ sep ++ pyJoin sep (y :: xs)).length = 0 := by rw [hemp]; rfl
    rw [String.length_append, String.length_append] at hlen
    have hxlen : x.data.length = 0 := by
      have : x.length = 0 := by omega
      exact this
    exact hx (String.ext (List.length_eq_zero.mp hxlen))

theorem dictGet?_cons_hit (key v : String) (l : List (String × String)) :
    dictGet? ((key, v) :: l) key = some v := by
  unfold dictGet?
  rw [List.find?_cons_of_pos _ (by simp)]
  rfl

theorem dictGet?_skip_part {key : String} {part rest : List (String × String)}
    (h : ∀ kv ∈ part, ¬ kv.1 = key) :
    dictGet? (part ++ rest) key = dictGet? rest key := by
  unfold dictGet?
  rw [List.find?_append,
    List.find?_eq_none.mpr (fun x hx => by simpa using h x hx)]
  rfl

theorem dictGet?_none_of_keys {key : String} {l : List (String × String)}
    (h : ∀ kv ∈ l, ¬ kv.1 = key) : dictGet? l key = none := by
  unfold dictGet?
  rw [List.find?_eq_none.mpr (fun x hx => by simpa using h x hx)]
  rfl

/-- Every entry of an `if .isEmpty then [] else [(k, j)]` category part
carries that category's key. -/
theorem part_key {cond : Bool} {k j : String} {kv : String × String}
    (h : kv ∈ (if cond = true then ([] : List (String × String)) else [(k, j)])) :
    kv.1 = k := by
  split at h
  · exact absurd h (List.not_mem_nil _)
  · simp only [List.mem_singleton] at h
    rw [h]

/-- Every entry of the size part carries the key 크기. -/
theorem size_part_key {title : String} {kv : String × String}
    (h : kv ∈ (match sizeSearch title.data with
      | some s => [("크기", pyStrip s)]
      | none => ([] : List (String × String)))) : kv.1 = "크기" := by
  cases hs : sizeSearch title.data with
  | none => rw [hs] at h; exact absurd h (List.not_mem_nil _)
  | some s =>
    rw [hs] at h
    simp only [List.mem_singleton] at h
    rw [h]

/-- C8: the feature extractor's keys come only from the five fixed category
labels (in that order), present keys never map to an empty value, the four
vocabulary categories hold exactly the comma-joined vocabulary terms found
in the title (in vocabulary order, material case-insensitively) and the size
key holds the stripped regex match; on the spec's example title it returns
size, color and material only. -/
theorem c8_feature_extractor :
    (∀ title : String,
      List.Sublist ((extract_features title).map Prod.fst)
        ["크기", "색상", "소재", "기능", "유형"] ∧
      (∀ kv ∈ extract_features title, kv.2 ≠ "") ∧
      dictGet? (extract_features title) "크기" =
        (sizeSearch title.data).map pyStrip ∧
      dictGet? (extract_features title) "색상" =
        (if (_COLOR_KEYWORDS.filter (fun c => pyIn c title)).isEmpty then none
         else some (pyJoin ", " (_COLOR_KEYWORDS.filter (fun c => pyIn c title)))) ∧
      dictGet? (extract_features title) "소재" =
        (if (_MATERIAL_KEYWORDS.filter
              (fun m => pyIn (pyLower m) (pyLower title))).isEmpty then none
         else some (pyJoin ", " (_MATERIAL_KEYWORDS.filter
              (fun m => pyIn (pyLower m) (pyLower title))))) ∧
      dictGet? (extract_features title) "기능" =
        (if (_FEATURE_KEYWORDS.filter (fun f => pyIn f title)).isEmpty then none
         else some (pyJoin ", " (_FEATURE_KEYWORDS.filter (fun f => pyIn f title)))) ∧
      dictGet? (extract_features title) "유형" =
        (if (_TYPE_KEYWORDS.filter (fun t => pyIn t title)).isEmpty then none
         else some (pyJoin ", " (_TYPE_KEYWORDS.filter (fun t => pyIn t title))))) ∧
    extract_features "책상 1200x600 화이트 원목" =
      [("크기", "1200x600"), ("색상", "화이트"), ("소재", "원목")] := by
  constructor
  · intro title
    refine ⟨?_, ?_, ?_, ?_, ?_, ?_, ?_⟩
    · -- keys are a sublist of the five labels
      show List.Sublist _ (["크기"] ++ (["색상"] ++ (["소재"] ++ (["기능"] ++ ["유형"]))))
      simp only [extract_features, List.append_assoc, List.map_append]
      refine List.Sublist.append ?_ (List.Sublist.append ?_
        (List.Sublist.append ?_ (List.Sublist.append ?_ ?_)))
      · cases hs : sizeSearch title.data <;> simp
      · split <;> simp
      · split <;> simp
      · split <;> simp
      · split <;> simp
    · -- no empty values
      intro kv hkv
      simp only [extract_features, List.append_assoc, List.mem_append] at hkv
      have hvocab_c : ∀ s ∈ _COLOR_KEYWORDS, s ≠ "" := by decide
      have hvocab_m : ∀ s ∈ _MATERIAL_KEYWORDS, s ≠ "" := by decide
      have hvocab_f : ∀ s ∈ _FEATURE_KEYWORDS, s ≠ "" := by decide
      have hvocab_t : ∀ s ∈ _TYPE_KEYWORDS, s ≠ "" := by decide
      rcases hkv with h | h | h | h | h
      · cases hs : sizeSearch title.data with
        | none => rw [hs] at h; exact absurd h (List.not_mem_nil _)
        | some s =>
          rw [hs] at h
          simp only [List.mem_singleton] at h
          rw [h]
          exact sizeSearch_strip_ne_empty hs
      · split at h
        · exact absurd h (List.not_mem_nil _)
        · next hne =>
          simp only [List.mem_singleton] at h
          rw [h]
          exact pyJoin_ne_empty (by simpa using hne)
            (fun s hs => hvocab_c s (List.mem_of_mem_filter hs))
      · split at h
        · exact absurd h (List.not_mem_nil _)
        · next hne =>
          simp only [List.mem_singleton] at h
          rw [h]
          exact pyJoin_ne_empty (by simpa using hne)
            (fun s hs => hvocab_m s (List.mem_of_mem_filter hs))
      · split at h
        · exact absurd h (List.not_mem_nil _)
        · next hne =>
          simp only [List.mem_singleton] at h
          rw [h]
          exact pyJoin_ne_empty (by simpa using hne)
            (fun s hs => hvocab_f s (List.mem_of_mem_filter hs))
      · split at h
        · exact absurd h (List.not_mem_nil _)
        · next hne =>
          simp only [List.mem_singleton] at h
          rw [h]
          exact pyJoin_ne_empty (by simpa using hne)
            (fun s hs => hvocab_t s (List.mem_of_mem_filter hs))
    · -- 크기 lookup
      simp only [extract_features, List.append_assoc]
      cases hs : sizeSearch title.data with
      | some s =>
        simp only [List.singleton_append]
        exact dictGet?_cons_hit _ _ _
      | none =>
        simp only [List.nil_append, Option.map_none']
        rw [dictGet?_skip_part (fun kv hkv => by rw [part_key hkv]; decide),
          dictGet?_skip_part (fun kv hkv => by rw [part_key hkv]; decide),
          dictGet?_skip_part (fun kv hkv => by rw [part_key hkv]; decide)]
        exact dictGet?_none_of_keys (fun kv hkv => by rw [part_key hkv]; decide)
    · -- 색상 lookup
      simp only [extract_features, List.append_assoc]
      rw [dictGet?_skip_part (fun kv hkv => by rw [size_part_key hkv]; decide)]
      by_cases hcol : (_COLOR_KEYWORDS.filter (fun c => pyIn c title)).isEmpty = true
      · simp only [hcol, if_true, List.nil_append]
        rw [dictGet?_skip_part (fun kv hkv => by rw [part_key hkv]; decide),
          dictGet?_skip_part (fun kv hkv => by rw [part_key hkv]; decide)]
        exact dictGet?_none_of_keys (fun kv hkv => by rw [part_key hkv]; decide)
      · rw [Bool.not_eq_true] at hcol
        simp only [hcol, Bool.false_eq_true, if_false, List.singleton_append]
        exact dictGet?_cons_hit _ _ _
    · -- 소재 lookup
      simp only [extract_features, List.append_assoc]
      rw [dictGet?_skip_part (fun kv hkv => by rw [size_part_key hkv]; decide),
        dictGet?_skip_part (fun kv hkv => by rw [part_key hkv]; decide)]
      by_cases hmat : (_MATERIAL_KEYWORDS.filter
          (fun m => pyIn (pyLower m) (pyLower title))).isEmpty = true
      · simp only [hmat, if_true, List.nil_append]
        rw [dictGet?_skip_part (fun kv hkv => by rw [part_key hkv]; decide)]
        exact dictGet?_none_of_keys (fun kv hkv => by rw [part_key hkv]; decide)
      · rw [Bool.not_eq_true] at hmat
        simp only [hmat, Bool.false_eq_true, if_false, List.singleton_append]
        exact dictGet?_cons_hit _ _ _
    · -- 기능 lookup
      simp only [extract_features, List.append_assoc]
      rw [dictGet?_skip_part (fun kv hkv => by rw [size_part_key hkv]; decide),
        dictGet?_skip_part (fun kv hkv => by rw [part_key hkv]; decide),
        dictGet?_skip_part (fun kv hkv => by rw [part_key hkv]; decide)]
      by_cases hfun : (_FEATURE_KEYWORDS.filter (fun f => pyIn f title)).isEmpty = true
      · simp only [hfun, if_true, List.nil_append]
        exact dictGet?_none_of_keys (fun kv hkv => by rw [part_key hkv]; decide)
      · rw [Bool.not_eq_true] at hfun
        simp only [hfun, Bool.false_eq_true, if_false, List.singleton_append]
        exact dictGet?_cons_hit _ _ _
    · -- 유형 lookup
      simp only [extract_features, List.append_assoc]
      rw [dictGet?_skip_part (fun kv hkv => by rw [size_part_key hkv]; decide),
        dictGet?_skip_part (fun kv hkv => by rw [part_key hkv]; decide),
        dictGet?_skip_part (fun kv hkv => by rw [part_key hkv]; decide),
        dictGet?_skip_part (fun kv hkv => by rw [part_key hkv]; decide)]
      by_cases htyp : (_TYPE_KEYWORDS.filter (fun t => pyIn t title)).isEmpty = true
      · simp only [htyp, if_true]
        exact dictGet?_none_of_keys (fun kv hkv => absurd hkv (List.not_mem_nil _))
      · rw [Bool.not_eq_true] at htyp
        simp only [htyp, Bool.false_eq_true, if_false]
        exact dictGet?_cons_hit _ _ _
  · decide

/-- Witness for C8: the size entry of the example title is a member with a
nonempty value. -/
theorem c8_feature_extractor_witness :
    (("크기", "1200x600") ∈ extract_features "책상 1200x600 화이트 원목") ∧
    (("크기", "1200x600") : String × String).2 ≠ "" :=
  ⟨by decide,
   (c8_feature_extractor.1 "책상 1200x600 화이트 원목").2.1 _ (by decide)⟩

end NaverMarket
